import Mathlib

/-!
Verification of the cookie-manager extension's core logic.

Shallow embedding of the repository's two parallel implementations:
* the ES-module variant (`utils/cookie-manager.js`, `utils/config-manager.js`,
  `background/service-worker.js`), embedded with the source's own names, and
* the service-worker variant (`cookie-manager-sw.js` / `config-manager-sw.js`,
  the files loaded through `importScripts`), embedded with an `SW` suffix.

JavaScript strings are embedded as `List Char`; JavaScript objects used as
string-keyed dictionaries are embedded as insertion-ordered association lists
(`lookupKey` / `setKey` / `pushKey` mirror property read, property write and
`push` onto a possibly missing array property).
-/

/-- JavaScript strings, embedded as lists of characters. -/
abbrev Str := List Char

/-- Turn a Lean string literal into the embedded string type. -/
def str (s : String) : Str := s.data

/-- `s.startsWith(p)` of JavaScript. -/
def startsWith (s p : Str) : Bool := decide (p <+: s)

/-- `s.endsWith(p)` of JavaScript. -/
def endsWith (s p : Str) : Bool := decide (p <:+ s)

/-- The leading-dot normalization both matchers apply:
`d.startsWith('.') ? d.substring(1) : d`. -/
def normalizeDomain (domain : Str) : Str :=
  if startsWith domain ['.'] then domain.drop 1 else domain

/-- `isDomainMatch` of `utils/cookie-manager.js` (ES-module variant):
exact match or subdomain match after leading-dot normalization; no wildcard
branch. -/
def isDomainMatch (cookieDomain targetDomain : Str) : Bool :=
  let normalizedCookieDomain := normalizeDomain cookieDomain
  let normalizedTargetDomain := normalizeDomain targetDomain
  if normalizedCookieDomain = normalizedTargetDomain then true
  else if endsWith normalizedCookieDomain ('.' :: normalizedTargetDomain) then true
  else false

/-- `isDomainMatch` of the service-worker variant (`cookie-manager-sw.js`):
exact match, subdomain match, and in addition a wildcard branch for
`*.`-prefixed patterns. -/
def isDomainMatchSW (cookieDomain targetDomain : Str) : Bool :=
  let normalizedCookieDomain := normalizeDomain cookieDomain
  let normalizedTargetDomain := normalizeDomain targetDomain
  if normalizedCookieDomain = normalizedTargetDomain then true
  else if endsWith normalizedCookieDomain ('.' :: normalizedTargetDomain) then true
  else if startsWith normalizedTargetDomain ['*', '.'] then
    let baseDomain := normalizedTargetDomain.drop 2
    if normalizedCookieDomain = baseDomain then true
    else if endsWith normalizedCookieDomain ('.' :: baseDomain) then true
    else false
  else false

/-- A captured cookie record: exactly the attributes both `saveCookies` /
`saveCookieToActiveProfile` copy out of a live cookie (`name`, `value`,
`domain`, `path`, `secure`, `httpOnly`, `sameSite`, `expirationDate`,
`storeId`).  Live cookies carry the same attributes, so one type serves both
roles. -/
structure Cookie where
  name : Str
  value : Str
  domain : Str
  path : Str
  secure : Bool
  httpOnly : Bool
  sameSite : Str
  expirationDate : Option Nat
  storeId : Option Str
deriving DecidableEq

/-- The attribute projection `cookie => ({name, value, domain, path, secure,
httpOnly, sameSite, expirationDate, storeId})` used by every save path.  On the
embedded record type it copies every field. -/
def recordOf (cookie : Cookie) : Cookie :=
  { name := cookie.name
    value := cookie.value
    domain := cookie.domain
    path := cookie.path
    secure := cookie.secure
    httpOnly := cookie.httpOnly
    sameSite := cookie.sameSite
    expirationDate := cookie.expirationDate
    storeId := cookie.storeId }

/-- A profile as created by `createProfile` in `config-manager.js`:
`{id, name, domains, enabled, createdAt}`.  `domains` is `Option`al because
the code guards against it being `undefined` (`!activeProfile.domains`,
`newProfile?.domains || []`). -/
structure Profile where
  id : Str
  name : Str
  domains : Option (List Str)
  enabled : Bool
  createdAt : Nat
deriving DecidableEq

/-- Property read on a JS object used as a dictionary: `m[k]`. -/
def lookupKey {α : Type} : List (Str × α) → Str → Option α
  | [], _ => none
  | (k', v) :: rest, k => if k' = k then some v else lookupKey rest k

/-- Property write on a JS object used as a dictionary: `m[k] = v` (updates the
existing key in place, otherwise appends it, matching JS property-insertion
order). -/
def setKey {α : Type} : List (Str × α) → Str → α → List (Str × α)
  | [], k, v => [(k, v)]
  | (k', v') :: rest, k, v =>
    if k' = k then (k, v) :: rest else (k', v') :: setKey rest k v

/-- `if (!m[k]) m[k] = []; m[k].push(c)` — append a record to the (possibly
missing) bucket stored at key `k`. -/
def pushKey : List (Str × List Cookie) → Str → Cookie → List (Str × List Cookie)
  | [], k, c => [(k, [c])]
  | (k', b) :: rest, k, c =>
    if k' = k then (k, b ++ [c]) :: rest else (k', b) :: pushKey rest k c

/-- The persisted `cookieData` mapping: profile id → domain → cookie records. -/
abbrev CookieData := List (Str × List (Str × List Cookie))

/-- The whole mutable state the embedded operations touch: the Profile Store
(`profiles`, `activeProfileId`), the snapshot store (`cookieData`), the
browser's live cookie set, and the switch coordinator's guard flag. -/
structure World where
  profiles : List Profile
  activeProfileId : Option Str
  cookieData : CookieData
  liveCookies : List Cookie
  isSwitchingProfile : Bool
deriving DecidableEq

/-- Modelled from the spec: the external cookie capability
`listAll(filter) -> sequence<CookieRecord>` (`chrome.cookies.getAll`), which is
outside the repository.  With no filter it returns every live cookie; with a
domain filter it returns the cookies whose domain equals the filter or is a
subdomain of it. -/
def chromeGetAll (live : List Cookie) (domainFilter : Option Str) : List Cookie :=
  match domainFilter with
  | none => live
  | some d => live.filter (fun cookie => isDomainMatch cookie.domain d)

/-- Modelled from the spec: the external cookie sink `set(details)`
(`chrome.cookies.set`), which is outside the repository.  Setting a cookie
replaces the live cookie with the same `(name, domain, path)`, otherwise adds
it. -/
def chromeSet : List Cookie → Cookie → List Cookie
  | [], c => [c]
  | r :: rest, c =>
    if r.name = c.name ∧ r.domain = c.domain ∧ r.path = c.path
    then c :: rest
    else r :: chromeSet rest c

/-- `getActiveProfile` of `config-manager.js` (both variants are identical):
null/empty active id gives null, otherwise `profiles.find(p => p.id ===
activeId) || null`. -/
def getActiveProfile (w : World) : Option Profile :=
  match w.activeProfileId with
  | none => none
  | some activeId =>
    if activeId = [] then none
    else w.profiles.find? (fun p => decide (p.id = activeId))

/-- Errors the embedded operations can raise. -/
inductive Err where
  /-- `throw new Error('配置不存在')` — profile not found. -/
  | profileNotFound
deriving DecidableEq

/-- `switchProfile` of `config-manager.js` (the Profile Store pointer update,
identical in both variants): throws when the id is absent, otherwise stores
the new active-profile id. -/
def switchProfileConfig (w : World) (profileId : Str) : Except Err World :=
  match w.profiles.find? (fun p => decide (p.id = profileId)) with
  | none => Except.error Err.profileNotFound
  | some _ => Except.ok { w with activeProfileId := some profileId }

/-- `isCookieInDomains` of `utils/cookie-manager.js` (ES-module variant):
`if (!domains || domains.length === 0) return false;` then
`domains.some(domain => isDomainMatch(cookie.domain, domain))`. -/
def isCookieInDomains (cookie : Cookie) (domains : Option (List Str)) : Bool :=
  match domains with
  | none => false
  | some ds =>
    if ds.length = 0 then false
    else ds.any (fun domain => isDomainMatch cookie.domain domain)

/-- `isCookieInDomains` of the service-worker variant: an empty or absent list
means "effective for all domains", so it returns `true`; otherwise
`domains.some(domain => isDomainMatch(cookie.domain, domain))` with the
wildcard-aware matcher. -/
def isCookieInDomainsSW (cookie : Cookie) (domains : Option (List Str)) : Bool :=
  match domains with
  | none => true
  | some ds =>
    if ds.length = 0 then true
    else ds.any (fun domain => isDomainMatchSW cookie.domain domain)

/-- `saveCookies(profileId, domain)` (identical logic in both variants):
query the external source for the domain's cookies, ensure
`cookieData[profileId]` exists, and overwrite `cookieData[profileId][domain]`
with the mapped records.  The ensure-then-assign pair collapses to a single
keyed write of the inner mapping. -/
def saveCookies (w : World) (profileId domain : Str) : World :=
  let cookies := chromeGetAll w.liveCookies (some domain)
  let profMap := (lookupKey w.cookieData profileId).getD []
  { w with
    cookieData :=
      setKey w.cookieData profileId (setKey profMap domain (cookies.map recordOf)) }

/-- `saveCurrentProfileCookies` of `utils/cookie-manager.js` (ES-module
variant): returns immediately when there is no active profile **or** the
active profile has no (or an empty) domain list; otherwise saves each
configured domain through `saveCookies`. -/
def saveCurrentProfileCookies (w : World) : World :=
  match getActiveProfile w with
  | none => w
  | some activeProfile =>
    match activeProfile.domains with
    | none => w
    | some ds =>
      if ds.length = 0 then w
      else ds.foldl (fun acc domain => saveCookies acc activeProfile.id domain) w

/-- `findIndex(c => c.name === cookie.name && c.path === cookie.path)` on a
domain bucket: index of the first record with the given `(name, path)`. -/
def findIndexNP : List Cookie → Str → Str → Option Nat
  | [], _, _ => none
  | c :: rest, name, path =>
    if c.name = name ∧ c.path = path then some 0
    else (findIndexNP rest name path).map (fun i => i + 1)

/-- The upsert both `saveCookieToActiveProfile` variants perform inside the
chosen bucket: replace the first record with the cookie's `(name, path)`,
otherwise push the record. -/
def upsertBucket (bucket : List Cookie) (cookie : Cookie) : List Cookie :=
  match findIndexNP bucket cookie.name cookie.path with
  | some i => bucket.set i (recordOf cookie)
  | none => bucket ++ [recordOf cookie]

/-- `saveCookieToActiveProfile` of `utils/cookie-manager.js` (ES-module
variant): bails out without an active profile or when `isCookieInDomains`
fails; the storage bucket key is `matchedDomain`, the first **configured
pattern** that matches the cookie's domain. -/
def saveCookieToActiveProfile (w : World) (cookie : Cookie) : World :=
  match getActiveProfile w with
  | none => w
  | some activeProfile =>
    if isCookieInDomains cookie activeProfile.domains = false then w
    else
      match (activeProfile.domains.getD []).find?
          (fun domain => isDomainMatch cookie.domain domain) with
      | none => w
      | some matchedDomain =>
        let profMap := (lookupKey w.cookieData activeProfile.id).getD []
        let bucket := (lookupKey profMap matchedDomain).getD []
        { w with
          cookieData :=
            setKey w.cookieData activeProfile.id
              (setKey profMap matchedDomain (upsertBucket bucket cookie)) }

/-- `saveCookieToActiveProfile` of the service-worker variant: same guards
(with the SW membership test), but the storage bucket key is the **cookie's
own normalized domain**. -/
def saveCookieToActiveProfileSW (w : World) (cookie : Cookie) : World :=
  match getActiveProfile w with
  | none => w
  | some activeProfile =>
    if isCookieInDomainsSW cookie activeProfile.domains = false then w
    else
      let cookieDomain := normalizeDomain cookie.domain
      let profMap := (lookupKey w.cookieData activeProfile.id).getD []
      let bucket := (lookupKey profMap cookieDomain).getD []
      { w with
        cookieData :=
          setKey w.cookieData activeProfile.id
            (setKey profMap cookieDomain (upsertBucket bucket cookie)) }

/-- The grouping loop of the service-worker variant's capture-every-cookie
path: `cookiesByDomain[normalizedDomain].push(record)` over all live cookies,
starting from an empty object. -/
def bucketByDomain (cookies : List Cookie) : List (Str × List Cookie) :=
  cookies.foldl
    (fun acc cookie => pushKey acc (normalizeDomain cookie.domain) (recordOf cookie))
    []

/-- `saveCurrentProfileCookies` of the service-worker variant:
* no active profile → no-op;
* active profile without configured domains → capture every live cookie,
  bucket by normalized domain, and replace the whole per-profile snapshot
  (`cookieData[activeProfile.id] = cookiesByDomain`);
* otherwise iterate the configured domains: a `*.`-prefixed pattern filters
  all live cookies down to the base domain and its subdomains and **pushes**
  each record into the bucket named by the cookie's normalized domain; a plain
  pattern delegates to `saveCookies`. -/
def saveCurrentProfileCookiesSW (w : World) : World :=
  match getActiveProfile w with
  | none => w
  | some activeProfile =>
    if activeProfile.domains.isNone ∨ (activeProfile.domains.getD []).length = 0 then
      let allCookies := chromeGetAll w.liveCookies none
      { w with
        cookieData := setKey w.cookieData activeProfile.id (bucketByDomain allCookies) }
    else
      (activeProfile.domains.getD []).foldl
        (fun acc domain =>
          if startsWith domain ['*', '.'] then
            let baseDomain := domain.drop 2
            let allCookies := chromeGetAll acc.liveCookies none
            let matchedCookies := allCookies.filter (fun cookie =>
              decide (normalizeDomain cookie.domain = baseDomain) ||
                endsWith (normalizeDomain cookie.domain) ('.' :: baseDomain))
            let profMap := (lookupKey acc.cookieData activeProfile.id).getD []
            let profMap := matchedCookies.foldl
              (fun pm cookie =>
                pushKey pm (normalizeDomain cookie.domain) (recordOf cookie))
              profMap
            { acc with cookieData := setKey acc.cookieData activeProfile.id profMap }
          else saveCookies acc activeProfile.id domain)
        w

/-- The deletion loop of `clearAllCookies` in the ES-module variant
(`utils/cookie-manager.js`): walks every live cookie, skips (`continue`) the
ones whose domain matches some exclude pattern via that file's non-wildcard
`isDomainMatch`, and attempts removal of the rest.  Returns
`(removal attempts, skipped cookies)`. -/
def clearAllCookies (allCookies : List Cookie) (excludeDomains : List Str) :
    List Cookie × List Cookie :=
  match allCookies with
  | [] => ([], [])
  | cookie :: rest =>
    let (removed, kept) := clearAllCookies rest excludeDomains
    if excludeDomains.any (fun domain => isDomainMatch cookie.domain domain)
    then (removed, cookie :: kept)
    else (cookie :: removed, kept)

/-- The deletion loop of `clearAllCookies` in the service-worker variant:
the same walk, but the skip test closes over that file's wildcard-aware
`isDomainMatch`.  Returns `(removal attempts, skipped cookies)`. -/
def clearAllCookiesSW (allCookies : List Cookie) (excludeDomains : List Str) :
    List Cookie × List Cookie :=
  match allCookies with
  | [] => ([], [])
  | cookie :: rest =>
    let (removed, kept) := clearAllCookiesSW rest excludeDomains
    if excludeDomains.any (fun domain => isDomainMatchSW cookie.domain domain)
    then (removed, cookie :: kept)
    else (cookie :: removed, kept)

/-- The ES-module `clearAllCookies` as a state transformer (the variant the
modelled ES service worker imports): the live cookies that survive are exactly
the skipped ones. -/
def clearAllCookiesW (w : World) (excludeDomains : List Str) : World :=
  { w with liveCookies := (clearAllCookies w.liveCookies excludeDomains).snd }

/-- The `cookieDetails` object `loadCookies` builds before calling the cookie
sink: same record with the falsy-default fills `path || '/'` and
`sameSite || 'no_restriction'`. -/
def cookieFromDetails (cookie : Cookie) : Cookie :=
  { cookie with
    path := if cookie.path = [] then str "/" else cookie.path
    sameSite := if cookie.sameSite = [] then str "no_restriction" else cookie.sameSite }

/-- `loadCookies(profileId)` (identical logic in both variants): for every
stored domain bucket and record, attempt to set a live cookie from the
record's details (best effort, per-record failures skipped). -/
def loadCookies (w : World) (profileId : Str) : World :=
  match lookupKey w.cookieData profileId with
  | none => w
  | some profMap =>
    { w with
      liveCookies :=
        profMap.foldl
          (fun live bucket =>
            bucket.snd.foldl (fun l cookie => chromeSet l (cookieFromDetails cookie)) live)
          w.liveCookies }

/-- The Switch Coordinator's observable steps, in the order the service worker
performs them. -/
inductive SwitchEvent where
  /-- Step 1: `saveCurrentProfileCookies()` for the outgoing profile. -/
  | save
  /-- Step 2: `ConfigManager.switchProfile` — validate and move the pointer. -/
  | updatePointer
  /-- Step 3: `clearAllCookies(excludeDomains)`. -/
  | clear
  /-- Step 4: `loadCookies(profileId)`. -/
  | load
deriving DecidableEq

/-- Result of one `switchProfile` call: the final world, the trace of steps it
performed, and the error it re-raises (if any). -/
structure SwitchResult where
  world : World
  events : List SwitchEvent
  error : Option Err
deriving DecidableEq

/-- Step 1 of the switch: `const currentProfile = await getActiveProfile();
if (currentProfile) await saveCurrentProfileCookies();`. -/
def switchStep1 (w1 : World) : World × List SwitchEvent :=
  match getActiveProfile w1 with
  | some _ => (saveCurrentProfileCookies w1, [SwitchEvent.save])
  | none => (w1, ([] : List SwitchEvent))

/-- Step 3 of the switch: `if (clearCookies) { const newProfile = await
getActiveProfile(); const excludeDomains = newProfile?.domains || [];
await clearAllCookies(excludeDomains); }`. -/
def switchStep3 (w3 : World) (clearCookies : Bool) : World × List SwitchEvent :=
  if clearCookies then
    (clearAllCookiesW w3 (((getActiveProfile w3).bind Profile.domains).getD []),
      [SwitchEvent.clear])
  else (w3, ([] : List SwitchEvent))

/-- `switchProfile(profileId, clearCookies)` of
`background/service-worker.js`: bail out when a switch is already in progress;
otherwise set the guard flag and run save-current → update-pointer →
clear-live (optional) → load-target, with `finally` semantics clearing the
flag on both the normal and the throwing path. -/
def switchProfile (w : World) (profileId : Str) (clearCookies : Bool) : SwitchResult :=
  if w.isSwitchingProfile then
    { world := w, events := [], error := none }
  else
    match switchProfileConfig
        (switchStep1 { w with isSwitchingProfile := true }).fst profileId with
    | Except.error e =>
      { world :=
          { (switchStep1 { w with isSwitchingProfile := true }).fst with
            isSwitchingProfile := false }
        events := (switchStep1 { w with isSwitchingProfile := true }).snd
        error := some e }
    | Except.ok w3 =>
      { world :=
          { loadCookies (switchStep3 w3 clearCookies).fst profileId with
            isSwitchingProfile := false }
        events :=
          (switchStep1 { w with isSwitchingProfile := true }).snd ++
            [SwitchEvent.updatePointer] ++
            (switchStep3 w3 clearCookies).snd ++ [SwitchEvent.load]
        error := none }

/-- A live cookie on a subdomain, used as concrete input. -/
def subCookie : Cookie :=
  { name := str "sid"
    value := str "v1"
    domain := str "a.example.com"
    path := str "/"
    secure := false
    httpOnly := false
    sameSite := str "lax"
    expirationDate := none
    storeId := none }

/-- A profile whose only configured pattern is the wildcard
`*.example.com`. -/
def wildProfile : Profile :=
  { id := str "p"
    name := str "Work"
    domains := some [str "*.example.com"]
    enabled := true
    createdAt := 1 }

/-- A profile with an empty configured-domain list. -/
def emptyDomainsProfile : Profile :=
  { id := str "p"
    name := str "Work"
    domains := some []
    enabled := true
    createdAt := 1 }

/-- A profile configured with the plain pattern `example.com`. -/
def plainProfile : Profile :=
  { id := str "p"
    name := str "Work"
    domains := some [str "example.com"]
    enabled := true
    createdAt := 1 }

/-- World with `wildProfile` active, an empty snapshot store and one live
subdomain cookie. -/
def wildWorld : World :=
  { profiles := [wildProfile]
    activeProfileId := some (str "p")
    cookieData := []
    liveCookies := [subCookie]
    isSwitchingProfile := false }

/-- World with `emptyDomainsProfile` active, an empty snapshot store and one
live cookie. -/
def emptyDomainsWorld : World :=
  { profiles := [emptyDomainsProfile]
    activeProfileId := some (str "p")
    cookieData := []
    liveCookies := [subCookie]
    isSwitchingProfile := false }

/-- World with `plainProfile` active and an empty snapshot store. -/
def plainWorld : World :=
  { profiles := [plainProfile]
    activeProfileId := some (str "p")
    cookieData := []
    liveCookies := []
    isSwitchingProfile := false }

/-- A live cookie on an unrelated domain, used as concrete input. -/
def otherCookie : Cookie :=
  { name := str "tid"
    value := str "v2"
    domain := str "other.com"
    path := str "/"
    secure := true
    httpOnly := false
    sameSite := str "lax"
    expirationDate := some 7
    storeId := none }

/-- The records of the live cookies whose normalized domain is `k`, in
order — the contents the capture-every-cookie path puts into bucket `k`. -/
def domainRecords (cookies : List Cookie) (k : Str) : List Cookie :=
  (cookies.filter (fun cookie => decide (normalizeDomain cookie.domain = k))).map recordOf

/-- The identity of a record within a domain bucket: its `(name, path)`
pair. -/
def keyNP (c : Cookie) : Str × Str := (c.name, c.path)

/-- Snapshot-store invariant: no two records in any domain bucket share the
same `(name, path)`. -/
def snapshotNoDup (cd : CookieData) : Prop :=
  ∀ pm ∈ cd, ∀ b ∈ pm.snd, (b.snd.map keyNP).Nodup

/-- Snapshot-store invariant: every domain key holds some record whose
normalized domain equals that key. -/
def goodKeys (cd : CookieData) : Prop :=
  ∀ pm ∈ cd, ∀ b ∈ pm.snd, ∃ r ∈ b.snd, normalizeDomain r.domain = b.fst

instance (cd : CookieData) : Decidable (snapshotNoDup cd) := by
  unfold snapshotNoDup
  infer_instance

instance (cd : CookieData) : Decidable (goodKeys cd) := by
  unfold goodKeys
  infer_instance

/-! ## Lemmas about the string primitives -/

lemma normalizeDomain_nil : normalizeDomain [] = [] := by decide

lemma normalizeDomain_cons_dot (rest : Str) : normalizeDomain ('.' :: rest) = rest := by
  simp [normalizeDomain, startsWith, List.cons_prefix_cons]

lemma normalizeDomain_cons_ne (ch : Char) (rest : Str) (h : ch ≠ '.') :
    normalizeDomain (ch :: rest) = ch :: rest := by
  have hs : startsWith (ch :: rest) ['.'] = false := by
    simp only [startsWith, decide_eq_false_iff_not, List.cons_prefix_cons]
    rintro ⟨h', -⟩
    exact h h'.symm
  simp [normalizeDomain, hs]

lemma endsWith_singleton_cons (a b : Char) (l : Str) :
    endsWith (a :: l) [b] = ((decide (b = a) && decide (l = [])) || endsWith l [b]) := by
  simp only [endsWith, ← Bool.decide_and, ← Bool.decide_or, decide_eq_decide,
    List.suffix_cons_iff, List.cons.injEq]
  constructor
  · rintro (⟨hb, hl⟩ | h)
    · exact Or.inl ⟨hb, hl.symm⟩
    · exact Or.inr h
  · rintro (⟨hb, hl⟩ | h)
    · exact Or.inl ⟨hb, hl.symm⟩
    · exact Or.inr h

lemma endsWith_nil_left (p : Str) : endsWith [] p = decide (p = []) := by
  simp only [endsWith, decide_eq_decide, List.suffix_nil]

/-- The ES-module matcher's if-chain as a single boolean expression. -/
lemma isDomainMatch_eq_or (c t : Str) :
    isDomainMatch c t =
      (decide (normalizeDomain c = normalizeDomain t) ||
        endsWith (normalizeDomain c) ('.' :: normalizeDomain t)) := by
  unfold isDomainMatch
  by_cases h1 : normalizeDomain c = normalizeDomain t
  · simp [h1]
  · cases h2 : endsWith (normalizeDomain c) ('.' :: normalizeDomain t) <;> simp [h1, h2]

/-- The service-worker matcher's if-chain as a single boolean expression. -/
lemma isDomainMatchSW_eq_or (c t : Str) :
    isDomainMatchSW c t =
      (decide (normalizeDomain c = normalizeDomain t) ||
        endsWith (normalizeDomain c) ('.' :: normalizeDomain t) ||
        (startsWith (normalizeDomain t) ['*', '.'] &&
          (decide (normalizeDomain c = (normalizeDomain t).drop 2) ||
            endsWith (normalizeDomain c) ('.' :: (normalizeDomain t).drop 2)))) := by
  unfold isDomainMatchSW
  by_cases h1 : normalizeDomain c = normalizeDomain t
  · simp [h1]
  · cases h2 : endsWith (normalizeDomain c) ('.' :: normalizeDomain t)
    · cases hw : startsWith (normalizeDomain t) ['*', '.']
      · simp [h1, h2, hw]
      · by_cases h3 : normalizeDomain c = (normalizeDomain t).drop 2
        · simp [h1, h2, hw, h3]
        · cases h4 : endsWith (normalizeDomain c) ('.' :: (normalizeDomain t).drop 2) <;>
            simp [h1, h2, hw, h3, h4]
    · simp [h1, h2]

lemma norm_empty_or_dot (c : Str) :
    (decide (normalizeDomain c = []) || endsWith (normalizeDomain c) ['.']) =
      (decide (c = []) || endsWith c ['.']) := by
  rcases c with _ | ⟨ch, rest⟩
  · decide
  · by_cases hch : ch = '.'
    · subst hch
      rw [normalizeDomain_cons_dot, endsWith_singleton_cons]
      simp
    · rw [normalizeDomain_cons_ne ch rest hch]

lemma startsWith_star_drop (nt : Str) :
    (startsWith nt ['*', '.'] && decide (nt.drop 2 = [])) = decide (nt = ['*', '.']) := by
  rcases nt with _ | ⟨a, _ | ⟨b, rest⟩⟩
  · decide
  · simp [startsWith, List.cons_prefix_cons]
  · simp only [startsWith, List.drop_succ_cons, List.drop_zero, ← Bool.decide_and,
      List.cons_prefix_cons, List.nil_prefix, and_true, decide_eq_decide, List.cons.injEq]
    constructor
    · rintro ⟨⟨ha, hb⟩, hr⟩
      exact ⟨ha.symm, hb.symm, hr⟩
    · rintro ⟨ha, hb, hr⟩
      exact ⟨⟨ha.symm, hb.symm⟩, hr⟩

/-! ## C9 -/

/-- C9 (amended): `isDomainMatch` and its service-worker twin are pure and
total; on pairs where at least one input is empty the result is **not**
simply "false unless both empty": with an empty target the matcher returns
true iff the cookie domain is empty or ends with `'.'`; with an empty cookie
domain it returns true iff the target normalizes to the empty string (i.e. is
`""` or `"."`), the service-worker variant additionally accepting targets that
normalize to `"*."`. -/
theorem isDomainMatch_empty_inputs (c t : Str) :
    (isDomainMatch c [] = (decide (c = []) || endsWith c ['.'])) ∧
    (isDomainMatch [] t = decide (normalizeDomain t = [])) ∧
    (isDomainMatchSW c [] = (decide (c = []) || endsWith c ['.'])) ∧
    (isDomainMatchSW [] t =
      (decide (normalizeDomain t = []) || decide (normalizeDomain t = ['*', '.']))) := by
  have e1 : ∀ (l : Str), decide (([] : Str) = l) = decide (l = []) := fun l => by
    rw [decide_eq_decide]
    exact eq_comm
  refine ⟨?_, ?_, ?_, ?_⟩
  · rw [isDomainMatch_eq_or, normalizeDomain_nil]
    exact norm_empty_or_dot c
  · rw [isDomainMatch_eq_or, normalizeDomain_nil, endsWith_nil_left]
    have h1 : decide (('.' :: normalizeDomain t) = ([] : Str)) = false := by simp
    rw [h1, Bool.or_false, e1]
  · rw [isDomainMatchSW_eq_or, normalizeDomain_nil]
    have hsw : startsWith ([] : Str) ['*', '.'] = false := by decide
    rw [hsw]
    simp only [Bool.false_and, Bool.or_false]
    exact norm_empty_or_dot c
  · rw [isDomainMatchSW_eq_or, normalizeDomain_nil, endsWith_nil_left, endsWith_nil_left]
    have h1 : decide (('.' :: normalizeDomain t) = ([] : Str)) = false := by simp
    have h2 : decide (('.' :: (normalizeDomain t).drop 2) = ([] : Str)) = false := by simp
    rw [h1, h2, Bool.or_false, Bool.or_false, e1, e1, startsWith_star_drop]

/-- C9 counterexample: `isDomainMatch("x.", "")` returns `true` although
exactly one of the two inputs is the empty string, refuting "returns false
unless both empty". -/
theorem isDomainMatch_empty_cex :
    isDomainMatch (str "x.") (str "") = true ∧ str "x." ≠ str "" := by decide

/-! ## C1 -/

/-- C1 (amended): the **service-worker** matcher satisfies the wildcard rule —
whenever the pattern starts with `"*."` after leading-dot normalization and
the normalized cookie domain equals the pattern's base or ends with `"."`
followed by the base, `isDomainMatchSW` returns true; in particular
`isDomainMatchSW("example.com", "*.example.com")` is true.  (The ES-module
variant has no wildcard branch and refutes the claim as stated.) -/
theorem isDomainMatchSW_wildcard_spec :
    (∀ c t : Str, startsWith (normalizeDomain t) ['*', '.'] = true →
      (normalizeDomain c = (normalizeDomain t).drop 2 ∨
        endsWith (normalizeDomain c) ('.' :: (normalizeDomain t).drop 2) = true) →
      isDomainMatchSW c t = true) ∧
    isDomainMatchSW (str "example.com") (str "*.example.com") = true := by
  refine ⟨?_, by decide⟩
  intro c t hw hd
  rw [isDomainMatchSW_eq_or, hw, Bool.true_and]
  rcases hd with h | h
  · simp [h]
  · simp [h]

/-- C1 witness: the wildcard rule applied at a concrete subdomain pair. -/
theorem isDomainMatchSW_wildcard_spec_witness :
    isDomainMatchSW (str "a.example.com") (str "*.example.com") = true :=
  isDomainMatchSW_wildcard_spec.1 (str "a.example.com") (str "*.example.com")
    (by decide) (Or.inr (by decide))

/-- C1 counterexample: the ES-module `isDomainMatch` returns `false` on
`("example.com", "*.example.com")`, where the claim requires `true`. -/
theorem isDomainMatch_wildcard_cex :
    isDomainMatch (str "example.com") (str "*.example.com") = false := by decide

/-! ## C10 -/

/-- C10 (amended): the two matcher implementations agree whenever the
normalized pattern does not start with `"*."` (and every pair accepted by the
ES-module variant is accepted by the service-worker variant); they are **not**
the same function, differing exactly on wildcard patterns, which only the
service-worker variant implements. -/
theorem isDomainMatch_variants_agree :
    ∀ c t : Str,
      (isDomainMatch c t = true → isDomainMatchSW c t = true) ∧
      (startsWith (normalizeDomain t) ['*', '.'] = false →
        isDomainMatch c t = isDomainMatchSW c t) := by
  intro c t
  constructor
  · intro h
    rw [isDomainMatch_eq_or] at h
    rw [isDomainMatchSW_eq_or]
    simp only [Bool.or_eq_true] at h ⊢
    tauto
  · intro hw
    rw [isDomainMatch_eq_or, isDomainMatchSW_eq_or, hw, Bool.false_and, Bool.or_false]

/-- C10 witness: agreement applied at a concrete non-wildcard pair, and the
ES-to-SW implication at a pair the ES-module variant accepts. -/
theorem isDomainMatch_variants_agree_witness :
    isDomainMatch (str "a.wps.com") (str "wps.com") =
      isDomainMatchSW (str "a.wps.com") (str "wps.com") ∧
    isDomainMatchSW (str "a.wps.com") (str "wps.com") = true :=
  ⟨(isDomainMatch_variants_agree (str "a.wps.com") (str "wps.com")).2 (by decide),
    (isDomainMatch_variants_agree (str "a.wps.com") (str "wps.com")).1 (by decide)⟩

/-- C10 counterexample: the two implementations disagree at
`("example.com", "*.example.com")`, so they do not compute the same
function. -/
theorem isDomainMatch_variants_differ_cex :
    isDomainMatch (str "example.com") (str "*.example.com") ≠
      isDomainMatchSW (str "example.com") (str "*.example.com") := by decide

/-! ## C2 -/

/-- C2 (amended): the **service-worker** `isCookieInDomains` returns true when
the pattern list is absent or empty ("all domains") and otherwise returns true
exactly when some pattern in the list matches the cookie's domain via the
service-worker `isDomainMatch`.  (The ES-module variant instead returns false
when the list is absent or empty and refutes the claim as stated.) -/
theorem isCookieInDomainsSW_spec (cookie : Cookie) (ds : List Str) :
    isCookieInDomainsSW cookie none = true ∧
    isCookieInDomainsSW cookie (some []) = true ∧
    (ds ≠ [] →
      (isCookieInDomainsSW cookie (some ds) = true ↔
        ∃ d ∈ ds, isDomainMatchSW cookie.domain d = true)) := by
  refine ⟨rfl, rfl, ?_⟩
  intro hne
  show (if ds.length = 0 then true
    else ds.any fun domain => isDomainMatchSW cookie.domain domain) = true ↔ _
  rw [if_neg (by simpa using hne)]
  exact List.any_eq_true

/-- C2 witness: membership applied at a concrete cookie and pattern list. -/
theorem isCookieInDomainsSW_spec_witness :
    isCookieInDomainsSW subCookie (some [str "example.com"]) = true :=
  ((isCookieInDomainsSW_spec subCookie [str "example.com"]).2.2 (by decide)).mpr
    ⟨str "example.com", by decide, by decide⟩

/-- C2 counterexample: the ES-module `isCookieInDomains` returns `false` for
an empty and for an absent pattern list, where the claim requires `true`. -/
theorem isCookieInDomains_empty_cex :
    isCookieInDomains subCookie (some []) = false ∧
    isCookieInDomains subCookie none = false := by decide

/-! ## C8 -/

lemma clearAllCookies_cons (hd : Cookie) (tl : List Cookie) (ex : List Str) :
    clearAllCookies (hd :: tl) ex =
      if ex.any (fun domain => isDomainMatch hd.domain domain)
      then ((clearAllCookies tl ex).fst, hd :: (clearAllCookies tl ex).snd)
      else (hd :: (clearAllCookies tl ex).fst, (clearAllCookies tl ex).snd) := by
  cases hre : clearAllCookies tl ex with
  | mk removed kept => simp only [clearAllCookies, hre]

lemma mem_clearAllCookies_fst (cookies : List Cookie) (ex : List Str) (c : Cookie) :
    c ∈ (clearAllCookies cookies ex).fst ↔
      c ∈ cookies ∧ ∀ d ∈ ex, isDomainMatch c.domain d = false := by
  induction cookies with
  | nil => simp [clearAllCookies]
  | cons hd tl ih =>
    rw [clearAllCookies_cons]
    by_cases h : ex.any (fun domain => isDomainMatch hd.domain domain) = true
    · rw [if_pos h]
      simp only [List.mem_cons, ih]
      constructor
      · rintro ⟨hc, hall⟩
        exact ⟨Or.inr hc, hall⟩
      · rintro ⟨rfl | hc, hall⟩
        · exfalso
          rcases List.any_eq_true.mp h with ⟨d, hdmem, hmatch⟩
          rw [hall d hdmem] at hmatch
          exact Bool.false_ne_true hmatch
        · exact ⟨hc, hall⟩
    · rw [if_neg h]
      simp only [List.mem_cons, ih]
      constructor
      · rintro (rfl | ⟨hc, hall⟩)
        · refine ⟨Or.inl rfl, fun d hdmem => ?_⟩
          cases hm : isDomainMatch c.domain d with
          | false => rfl
          | true => exact absurd (List.any_eq_true.mpr ⟨d, hdmem, hm⟩) h
        · exact ⟨Or.inr hc, hall⟩
      · rintro ⟨rfl | hc, hall⟩
        · exact Or.inl rfl
        · exact Or.inr ⟨hc, hall⟩

lemma clearAllCookiesSW_cons (hd : Cookie) (tl : List Cookie) (ex : List Str) :
    clearAllCookiesSW (hd :: tl) ex =
      if ex.any (fun domain => isDomainMatchSW hd.domain domain)
      then ((clearAllCookiesSW tl ex).fst, hd :: (clearAllCookiesSW tl ex).snd)
      else (hd :: (clearAllCookiesSW tl ex).fst, (clearAllCookiesSW tl ex).snd) := by
  cases hre : clearAllCookiesSW tl ex with
  | mk removed kept => simp only [clearAllCookiesSW, hre]

lemma mem_clearAllCookiesSW_fst (cookies : List Cookie) (ex : List Str) (c : Cookie) :
    c ∈ (clearAllCookiesSW cookies ex).fst ↔
      c ∈ cookies ∧ ∀ d ∈ ex, isDomainMatchSW c.domain d = false := by
  induction cookies with
  | nil => simp [clearAllCookiesSW]
  | cons hd tl ih =>
    rw [clearAllCookiesSW_cons]
    by_cases h : ex.any (fun domain => isDomainMatchSW hd.domain domain) = true
    · rw [if_pos h]
      simp only [List.mem_cons, ih]
      constructor
      · rintro ⟨hc, hall⟩
        exact ⟨Or.inr hc, hall⟩
      · rintro ⟨rfl | hc, hall⟩
        · exfalso
          rcases List.any_eq_true.mp h with ⟨d, hdmem, hmatch⟩
          rw [hall d hdmem] at hmatch
          exact Bool.false_ne_true hmatch
        · exact ⟨hc, hall⟩
    · rw [if_neg h]
      simp only [List.mem_cons, ih]
      constructor
      · rintro (rfl | ⟨hc, hall⟩)
        · refine ⟨Or.inl rfl, fun d hdmem => ?_⟩
          cases hm : isDomainMatchSW c.domain d with
          | false => rfl
          | true => exact absurd (List.any_eq_true.mpr ⟨d, hdmem, hm⟩) h
        · exact ⟨Or.inr hc, hall⟩
      · rintro ⟨rfl | hc, hall⟩
        · exact Or.inl rfl
        · exact Or.inr ⟨hc, hall⟩

lemma isDomainMatch_exampleCom (d : Str) :
    isDomainMatch d (str "example.com") = true ↔
      (normalizeDomain d = str "example.com" ∨
        endsWith (normalizeDomain d) (str ".example.com") = true) := by
  rw [isDomainMatch_eq_or,
    show normalizeDomain (str "example.com") = str "example.com" from by decide,
    show ('.' :: str "example.com") = str ".example.com" from by decide]
  simp only [Bool.or_eq_true, decide_eq_true_eq]

lemma isDomainMatchSW_exampleCom (d : Str) :
    isDomainMatchSW d (str "example.com") = true ↔
      (normalizeDomain d = str "example.com" ∨
        endsWith (normalizeDomain d) (str ".example.com") = true) := by
  rw [isDomainMatchSW_eq_or,
    show normalizeDomain (str "example.com") = str "example.com" from by decide,
    show ('.' :: str "example.com") = str ".example.com" from by decide,
    show startsWith (str "example.com") ['*', '.'] = false from by decide]
  simp only [Bool.false_and, Bool.or_false, Bool.or_eq_true, decide_eq_true_eq]

/-- C8: in both implementations, `clearAllCookies(excludeDomainPatterns)`
attempts removal of exactly the live cookies whose domain matches no exclude
pattern via that variant's own `isDomainMatch` (non-wildcard in the ES
module, wildcard-aware in the service worker); with exclude list
`["example.com"]` neither variant ever removes a cookie whose normalized
domain is `example.com` or a subdomain of it (`endsWith ".example.com"`), and
both remove every other live cookie. -/
theorem clearAllCookies_spec (allCookies : List Cookie) (excludeDomains : List Str)
    (c : Cookie) :
    (c ∈ (clearAllCookies allCookies excludeDomains).fst ↔
      c ∈ allCookies ∧ ∀ d ∈ excludeDomains, isDomainMatch c.domain d = false) ∧
    (c ∈ (clearAllCookiesSW allCookies excludeDomains).fst ↔
      c ∈ allCookies ∧ ∀ d ∈ excludeDomains, isDomainMatchSW c.domain d = false) ∧
    ((normalizeDomain c.domain = str "example.com" ∨
        endsWith (normalizeDomain c.domain) (str ".example.com") = true) →
      c ∉ (clearAllCookies allCookies [str "example.com"]).fst ∧
      c ∉ (clearAllCookiesSW allCookies [str "example.com"]).fst) ∧
    (c ∈ allCookies →
      ¬(normalizeDomain c.domain = str "example.com" ∨
          endsWith (normalizeDomain c.domain) (str ".example.com") = true) →
      c ∈ (clearAllCookies allCookies [str "example.com"]).fst ∧
      c ∈ (clearAllCookiesSW allCookies [str "example.com"]).fst) := by
  refine ⟨mem_clearAllCookies_fst allCookies excludeDomains c,
    mem_clearAllCookiesSW_fst allCookies excludeDomains c, ?_, ?_⟩
  · intro hmatch
    constructor
    · intro hmem
      rcases (mem_clearAllCookies_fst allCookies [str "example.com"] c).mp hmem with
        ⟨-, hall⟩
      have hfalse := hall (str "example.com") (List.mem_singleton.mpr rfl)
      rw [(isDomainMatch_exampleCom c.domain).mpr hmatch] at hfalse
      exact absurd hfalse (by decide)
    · intro hmem
      rcases (mem_clearAllCookiesSW_fst allCookies [str "example.com"] c).mp hmem with
        ⟨-, hall⟩
      have hfalse := hall (str "example.com") (List.mem_singleton.mpr rfl)
      rw [(isDomainMatchSW_exampleCom c.domain).mpr hmatch] at hfalse
      exact absurd hfalse (by decide)
  · intro hc hnot
    constructor
    · refine (mem_clearAllCookies_fst allCookies [str "example.com"] c).mpr ⟨hc, ?_⟩
      intro d hdmem
      rw [List.mem_singleton.mp hdmem]
      cases hm : isDomainMatch c.domain (str "example.com") with
      | false => rfl
      | true => exact absurd ((isDomainMatch_exampleCom c.domain).mp hm) hnot
    · refine (mem_clearAllCookiesSW_fst allCookies [str "example.com"] c).mpr ⟨hc, ?_⟩
      intro d hdmem
      rw [List.mem_singleton.mp hdmem]
      cases hm : isDomainMatchSW c.domain (str "example.com") with
      | false => rfl
      | true => exact absurd ((isDomainMatchSW_exampleCom c.domain).mp hm) hnot

/-- C8 witness: with exclude list `["example.com"]`, both variants keep the
subdomain cookie and both remove the unrelated cookie. -/
theorem clearAllCookies_spec_witness :
    (subCookie ∉ (clearAllCookies [subCookie, otherCookie] [str "example.com"]).fst ∧
      subCookie ∉ (clearAllCookiesSW [subCookie, otherCookie] [str "example.com"]).fst) ∧
    (otherCookie ∈ (clearAllCookies [subCookie, otherCookie] [str "example.com"]).fst ∧
      otherCookie ∈ (clearAllCookiesSW [subCookie, otherCookie] [str "example.com"]).fst) :=
  ⟨(clearAllCookies_spec [subCookie, otherCookie] [str "example.com"] subCookie).2.2.1
      (Or.inr (by decide)),
    (clearAllCookies_spec [subCookie, otherCookie] [str "example.com"] otherCookie).2.2.2
      (by decide) (by decide)⟩

/-! ## Association-list lemmas for the snapshot store -/

lemma lookupKey_setKey_self {α : Type} (m : List (Str × α)) (k : Str) (v : α) :
    lookupKey (setKey m k v) k = some v := by
  induction m with
  | nil => simp [setKey, lookupKey]
  | cons e rest ih =>
    obtain ⟨k₀, v₀⟩ := e
    by_cases hk : k₀ = k
    · simp [setKey, hk, lookupKey]
    · simp [setKey, hk, lookupKey, ih]

lemma lookupKey_setKey_ne {α : Type} (m : List (Str × α)) (k k' : Str) (v : α)
    (h : k' ≠ k) : lookupKey (setKey m k v) k' = lookupKey m k' := by
  induction m with
  | nil =>
    simp only [setKey, lookupKey]
    rw [if_neg (fun he => h he.symm)]
  | cons e rest ih =>
    obtain ⟨k₀, v₀⟩ := e
    by_cases hk : k₀ = k
    · subst hk
      simp only [setKey, if_pos rfl, lookupKey]
      rw [if_neg (fun he => h he.symm), if_neg (fun he => h he.symm)]
    · simp only [setKey, if_neg hk, lookupKey]
      by_cases hk' : k₀ = k'
      · rw [if_pos hk', if_pos hk']
      · rw [if_neg hk', if_neg hk']
        exact ih

lemma setKey_setKey {α : Type} (m : List (Str × α)) (k : Str) (v v' : α) :
    setKey (setKey m k v) k v' = setKey m k v' := by
  induction m with
  | nil => simp [setKey]
  | cons e rest ih =>
    obtain ⟨k₀, v₀⟩ := e
    by_cases hk : k₀ = k
    · simp [setKey, hk]
    · simp [setKey, hk, ih]

lemma mem_setKey {α : Type} {m : List (Str × α)} {k : Str} {v : α} {e : Str × α}
    (h : e ∈ setKey m k v) : e = (k, v) ∨ e ∈ m := by
  induction m with
  | nil => simpa [setKey] using h
  | cons e₀ rest ih =>
    obtain ⟨k₀, v₀⟩ := e₀
    by_cases hk : k₀ = k
    · rw [show setKey ((k₀, v₀) :: rest) k v = (k, v) :: rest from by
        simp [setKey, hk]] at h
      rcases List.mem_cons.mp h with h | h
      · exact Or.inl h
      · exact Or.inr (List.mem_cons_of_mem _ h)
    · rw [show setKey ((k₀, v₀) :: rest) k v = (k₀, v₀) :: setKey rest k v from by
        simp [setKey, hk]] at h
      rcases List.mem_cons.mp h with h | h
      · exact Or.inr (h ▸ List.mem_cons_self _ _)
      · rcases ih h with h | h
        · exact Or.inl h
        · exact Or.inr (List.mem_cons_of_mem _ h)

lemma lookupKey_mem {α : Type} {m : List (Str × α)} {k : Str} {v : α}
    (h : lookupKey m k = some v) : (k, v) ∈ m := by
  induction m with
  | nil => simp [lookupKey] at h
  | cons e rest ih =>
    obtain ⟨k₀, v₀⟩ := e
    by_cases hk : k₀ = k
    · subst hk
      have he : lookupKey ((k₀, v₀) :: rest) k₀ = some v₀ := by simp [lookupKey]
      rw [he] at h
      obtain rfl : v₀ = v := Option.some.inj h
      exact List.mem_cons_self _ _
    · simp only [lookupKey, if_neg hk] at h
      exact List.mem_cons_of_mem _ (ih h)

lemma lookupKey_pushKey_self (m : List (Str × List Cookie)) (k : Str) (c : Cookie) :
    lookupKey (pushKey m k c) k = some ((lookupKey m k).getD [] ++ [c]) := by
  induction m with
  | nil => simp [pushKey, lookupKey]
  | cons e rest ih =>
    obtain ⟨k₀, b⟩ := e
    by_cases hk : k₀ = k
    · simp [pushKey, hk, lookupKey]
    · simp [pushKey, hk, lookupKey, ih]

lemma lookupKey_pushKey_ne (m : List (Str × List Cookie)) (k k' : Str) (c : Cookie)
    (h : k' ≠ k) : lookupKey (pushKey m k c) k' = lookupKey m k' := by
  induction m with
  | nil =>
    simp only [pushKey, lookupKey]
    rw [if_neg (fun he => h he.symm)]
  | cons e rest ih =>
    obtain ⟨k₀, b⟩ := e
    by_cases hk : k₀ = k
    · subst hk
      simp only [pushKey, if_pos rfl, lookupKey]
      rw [if_neg (fun he => h he.symm), if_neg (fun he => h he.symm)]
    · simp only [pushKey, if_neg hk, lookupKey]
      by_cases hk' : k₀ = k'
      · rw [if_pos hk', if_pos hk']
      · rw [if_neg hk', if_neg hk']
        exact ih

/-! ## C5 -/

lemma domainRecords_cons (c : Cookie) (cs : List Cookie) (k : Str) :
    domainRecords (c :: cs) k =
      if normalizeDomain c.domain = k
      then recordOf c :: domainRecords cs k
      else domainRecords cs k := by
  by_cases hk : normalizeDomain c.domain = k
  · simp [domainRecords, List.filter_cons, hk]
  · simp [domainRecords, List.filter_cons, hk]

lemma foldl_pushKey_lookup (cookies : List Cookie) :
    ∀ (m : List (Str × List Cookie)) (k : Str),
      lookupKey
        (cookies.foldl
          (fun acc cookie => pushKey acc (normalizeDomain cookie.domain) (recordOf cookie))
          m) k =
        match lookupKey m k with
        | some b => some (b ++ domainRecords cookies k)
        | none =>
          if domainRecords cookies k = [] then none else some (domainRecords cookies k) := by
  induction cookies with
  | nil =>
    intro m k
    simp only [List.foldl_nil, domainRecords, List.filter_nil, List.map_nil]
    cases lookupKey m k <;> simp
  | cons c cs ih =>
    intro m k
    rw [List.foldl_cons, ih, domainRecords_cons]
    by_cases hk : normalizeDomain c.domain = k
    · rw [if_pos hk, hk, lookupKey_pushKey_self]
      cases hm : lookupKey m k with
      | none => simp
      | some b => simp
    · rw [if_neg hk, lookupKey_pushKey_ne m (normalizeDomain c.domain) k (recordOf c)
        (fun he => hk he.symm)]

/-- C5 (amended): with no active profile both bulk-save variants are no-ops.
When the active profile has no configured domains, the **service-worker**
`saveCurrentProfileCookies` captures every live cookie, buckets the records by
the cookie's normalized domain (bucket `k` holds exactly the records of the
live cookies normalizing to `k`, in order), and replaces the entire
per-profile snapshot with those buckets.  (The ES-module variant instead
returns without capturing anything when the domain list is empty, refuting the
claim as stated.) -/
theorem saveCurrentProfileCookiesSW_spec (w : World) :
    (getActiveProfile w = none →
      saveCurrentProfileCookiesSW w = w ∧ saveCurrentProfileCookies w = w) ∧
    (∀ p, getActiveProfile w = some p → (p.domains = none ∨ p.domains = some []) →
      saveCurrentProfileCookiesSW w =
        { w with cookieData := setKey w.cookieData p.id (bucketByDomain w.liveCookies) }) ∧
    (∀ k, lookupKey (bucketByDomain w.liveCookies) k =
      if domainRecords w.liveCookies k = [] then none
      else some (domainRecords w.liveCookies k)) := by
  refine ⟨?_, ?_, ?_⟩
  · intro h
    constructor
    · simp only [saveCurrentProfileCookiesSW, h]
    · simp only [saveCurrentProfileCookies, h]
  · intro p hp hd
    simp only [saveCurrentProfileCookiesSW, hp]
    rcases hd with hd | hd <;> simp [hd, chromeGetAll]
  · intro k
    unfold bucketByDomain
    rw [foldl_pushKey_lookup]
    simp [lookupKey]

/-- C5 witness: the capture-everything path applied at the concrete world with
an active empty-domain profile. -/
theorem saveCurrentProfileCookiesSW_spec_witness :
    saveCurrentProfileCookiesSW emptyDomainsWorld =
      { emptyDomainsWorld with
        cookieData :=
          setKey emptyDomainsWorld.cookieData emptyDomainsProfile.id
            (bucketByDomain emptyDomainsWorld.liveCookies) } :=
  (saveCurrentProfileCookiesSW_spec emptyDomainsWorld).2.1 emptyDomainsProfile
    (by decide) (Or.inr (by decide))

/-- C5 counterexample: the ES-module `saveCurrentProfileCookies` is a no-op on
a world whose active profile has an empty domain list and which has a live
cookie, whereas the claim requires the live cookie to be captured into the
profile's snapshot. -/
theorem saveCurrentProfileCookies_emptyDomains_cex :
    saveCurrentProfileCookies emptyDomainsWorld = emptyDomainsWorld ∧
    emptyDomainsWorld.liveCookies = [subCookie] ∧
    lookupKey (saveCurrentProfileCookies emptyDomainsWorld).cookieData (str "p") =
      none := by decide

/-! ## Bucket-upsert lemmas (C6, C7) -/

lemma keyNP_recordOf (c : Cookie) : keyNP (recordOf c) = keyNP c := rfl

lemma upsertBucket_nil (c : Cookie) : upsertBucket [] c = [recordOf c] := rfl

lemma upsertBucket_cons_match (hd : Cookie) (tl : List Cookie) (c : Cookie)
    (h : hd.name = c.name ∧ hd.path = c.path) :
    upsertBucket (hd :: tl) c = recordOf c :: tl := by
  unfold upsertBucket findIndexNP
  rw [if_pos h]
  rfl

lemma findIndexNP_cons_nomatch (hd : Cookie) (tl : List Cookie) (name path : Str)
    (h : ¬(hd.name = name ∧ hd.path = path)) :
    findIndexNP (hd :: tl) name path = (findIndexNP tl name path).map (fun i => i + 1) := by
  have he : findIndexNP (hd :: tl) name path =
      if hd.name = name ∧ hd.path = path then some 0
      else (findIndexNP tl name path).map (fun i => i + 1) := rfl
  rw [he, if_neg h]

lemma upsertBucket_cons_nomatch (hd : Cookie) (tl : List Cookie) (c : Cookie)
    (h : ¬(hd.name = c.name ∧ hd.path = c.path)) :
    upsertBucket (hd :: tl) c = hd :: upsertBucket tl c := by
  unfold upsertBucket
  rw [findIndexNP_cons_nomatch hd tl c.name c.path h]
  cases hf : findIndexNP tl c.name c.path with
  | none => rfl
  | some i => rfl

lemma mem_keys_upsertBucket {tl : List Cookie} {c : Cookie} {k : Str × Str}
    (h : k ∈ (upsertBucket tl c).map keyNP) : k = keyNP c ∨ k ∈ tl.map keyNP := by
  induction tl with
  | nil =>
    rw [upsertBucket_nil] at h
    simp only [List.map_cons, List.map_nil, List.mem_singleton] at h
    exact Or.inl (h.trans (keyNP_recordOf c))
  | cons hd tl ih =>
    by_cases hm : hd.name = c.name ∧ hd.path = c.path
    · rw [upsertBucket_cons_match _ _ _ hm, List.map_cons] at h
      rcases List.mem_cons.mp h with h | h
      · exact Or.inl (h.trans (keyNP_recordOf c))
      · exact Or.inr (List.mem_cons_of_mem _ h)
    · rw [upsertBucket_cons_nomatch _ _ _ hm, List.map_cons] at h
      rcases List.mem_cons.mp h with h | h
      · exact Or.inr (h ▸ List.mem_cons_self _ _)
      · rcases ih h with h | h
        · exact Or.inl h
        · exact Or.inr (List.mem_cons_of_mem _ h)

lemma upsertBucket_nodup (bucket : List Cookie) (c : Cookie)
    (h : (bucket.map keyNP).Nodup) : ((upsertBucket bucket c).map keyNP).Nodup := by
  induction bucket with
  | nil =>
    rw [upsertBucket_nil]
    simp
  | cons hd tl ih =>
    rw [List.map_cons, List.nodup_cons] at h
    obtain ⟨hnotin, htl⟩ := h
    by_cases hm : hd.name = c.name ∧ hd.path = c.path
    · rw [upsertBucket_cons_match _ _ _ hm, List.map_cons]
      have hkey : keyNP (recordOf c) = keyNP hd := by
        simp [keyNP, recordOf, hm.1, hm.2]
      rw [hkey]
      exact List.nodup_cons.mpr ⟨hnotin, htl⟩
    · rw [upsertBucket_cons_nomatch _ _ _ hm, List.map_cons]
      refine List.nodup_cons.mpr ⟨?_, ih htl⟩
      intro hin
      rcases mem_keys_upsertBucket hin with he | he
      · exact hm ⟨congrArg Prod.fst he, congrArg Prod.snd he⟩
      · exact hnotin he

lemma upsertBucket_idem (bucket : List Cookie) (c : Cookie) :
    upsertBucket (upsertBucket bucket c) c = upsertBucket bucket c := by
  induction bucket with
  | nil =>
    rw [upsertBucket_nil, upsertBucket_cons_match (recordOf c) [] c ⟨rfl, rfl⟩]
  | cons hd tl ih =>
    by_cases hm : hd.name = c.name ∧ hd.path = c.path
    · rw [upsertBucket_cons_match _ _ _ hm,
        upsertBucket_cons_match (recordOf c) tl c ⟨rfl, rfl⟩]
    · rw [upsertBucket_cons_nomatch _ _ _ hm,
        upsertBucket_cons_nomatch hd (upsertBucket tl c) c hm, ih]

lemma countP_upsertBucket (bucket : List Cookie) (c : Cookie)
    (h : (bucket.map keyNP).Nodup) :
    (upsertBucket bucket c).countP (fun r => decide (keyNP r = keyNP c)) = 1 := by
  induction bucket with
  | nil =>
    rw [upsertBucket_nil]
    simp [List.countP_cons, keyNP_recordOf]
  | cons hd tl ih =>
    rw [List.map_cons, List.nodup_cons] at h
    obtain ⟨hnotin, htl⟩ := h
    by_cases hm : hd.name = c.name ∧ hd.path = c.path
    · rw [upsertBucket_cons_match _ _ _ hm, List.countP_cons]
      have hkey : keyNP hd = keyNP c := by simp [keyNP, hm.1, hm.2]
      have h0 : tl.countP (fun r => decide (keyNP r = keyNP c)) = 0 := by
        rw [List.countP_eq_zero]
        intro r hr
        simp only [decide_eq_true_eq]
        intro he
        exact hnotin (hkey ▸ he ▸ List.mem_map_of_mem keyNP hr)
      simp [h0, keyNP_recordOf]
    · rw [upsertBucket_cons_nomatch _ _ _ hm, List.countP_cons]
      have hne : decide (keyNP hd = keyNP c) = false := by
        simp only [decide_eq_false_iff_not, keyNP, Prod.mk.injEq]
        exact hm
      rw [ih htl]
      simp [hne]

lemma mem_upsertBucket_self (bucket : List Cookie) (c : Cookie) :
    recordOf c ∈ upsertBucket bucket c := by
  induction bucket with
  | nil =>
    rw [upsertBucket_nil]
    exact List.mem_singleton.mpr rfl
  | cons hd tl ih =>
    by_cases hm : hd.name = c.name ∧ hd.path = c.path
    · rw [upsertBucket_cons_match _ _ _ hm]
      exact List.mem_cons_self _ _
    · rw [upsertBucket_cons_nomatch _ _ _ hm]
      exact List.mem_cons_of_mem _ ih

lemma saveCookieToActiveProfileSW_eq (w : World) (c : Cookie) (p : Profile)
    (hap : getActiveProfile w = some p)
    (hin : isCookieInDomainsSW c p.domains = true) :
    saveCookieToActiveProfileSW w c =
      { w with
        cookieData :=
          setKey w.cookieData p.id
            (setKey ((lookupKey w.cookieData p.id).getD [])
              (normalizeDomain c.domain)
              (upsertBucket
                ((lookupKey ((lookupKey w.cookieData p.id).getD [])
                  (normalizeDomain c.domain)).getD [])
                c)) } := by
  unfold saveCookieToActiveProfileSW
  split
  · simp_all
  · rename_i ap heq
    rw [hap] at heq
    obtain rfl : ap = p := Option.some.inj heq.symm
    rw [if_neg (by simp [hin])]

lemma saveCookieToActiveProfileSW_noop (w : World) (c : Cookie)
    (h : getActiveProfile w = none ∨
      ∃ p, getActiveProfile w = some p ∧ isCookieInDomainsSW c p.domains = false) :
    saveCookieToActiveProfileSW w c = w := by
  unfold saveCookieToActiveProfileSW
  rcases h with h | ⟨p, hap, hin⟩
  · split
    · rfl
    · rename_i ap heq
      rw [h] at heq
      exact absurd heq (by simp)
  · split
    · rfl
    · rename_i ap heq
      rw [hap] at heq
      obtain rfl : ap = p := Option.some.inj heq.symm
      rw [if_pos hin]

lemma snapshotNoDup_mem_getD {cd : CookieData} (h : snapshotNoDup cd) {pid : Str}
    {b : Str × List Cookie} (hb : b ∈ (lookupKey cd pid).getD []) :
    (b.snd.map keyNP).Nodup := by
  cases hp : lookupKey cd pid with
  | none =>
    rw [hp] at hb
    simp at hb
  | some pm =>
    rw [hp] at hb
    exact h (pid, pm) (lookupKey_mem hp) b hb

lemma goodKeys_mem_getD {cd : CookieData} (h : goodKeys cd) {pid : Str}
    {b : Str × List Cookie} (hb : b ∈ (lookupKey cd pid).getD []) :
    ∃ r ∈ b.snd, normalizeDomain r.domain = b.fst := by
  cases hp : lookupKey cd pid with
  | none =>
    rw [hp] at hb
    simp at hb
  | some pm =>
    rw [hp] at hb
    exact h (pid, pm) (lookupKey_mem hp) b hb

lemma snapshot_bucket_nodup {cd : CookieData} (h : snapshotNoDup cd) (pid k : Str) :
    ((((lookupKey ((lookupKey cd pid).getD []) k).getD []).map keyNP)).Nodup := by
  cases hb : lookupKey ((lookupKey cd pid).getD []) k with
  | none => simp
  | some b =>
    simp only [Option.getD_some]
    exact snapshotNoDup_mem_getD h (lookupKey_mem hb)

lemma snapshotNoDup_upsertSW (w : World) (c : Cookie)
    (h : snapshotNoDup w.cookieData) :
    snapshotNoDup (saveCookieToActiveProfileSW w c).cookieData := by
  cases hap : getActiveProfile w with
  | none => rw [saveCookieToActiveProfileSW_noop w c (Or.inl hap)]; exact h
  | some p =>
    cases hin : isCookieInDomainsSW c p.domains with
    | false =>
      rw [saveCookieToActiveProfileSW_noop w c (Or.inr ⟨p, hap, hin⟩)]
      exact h
    | true =>
      rw [saveCookieToActiveProfileSW_eq w c p hap hin]
      intro pm hpm b hb
      rcases mem_setKey hpm with hpm | hpm
      · subst hpm
        rcases mem_setKey hb with hb | hb
        · subst hb
          exact upsertBucket_nodup _ c (snapshot_bucket_nodup h p.id (normalizeDomain c.domain))
        · exact snapshotNoDup_mem_getD h hb
      · exact h pm hpm b hb

lemma saveCookieToActiveProfileSW_idem (w : World) (c : Cookie) :
    saveCookieToActiveProfileSW (saveCookieToActiveProfileSW w c) c =
      saveCookieToActiveProfileSW w c := by
  cases hap : getActiveProfile w with
  | none =>
    have h1 := saveCookieToActiveProfileSW_noop w c (Or.inl hap)
    rw [h1, h1]
  | some p =>
    cases hin : isCookieInDomainsSW c p.domains with
    | false =>
      have h1 := saveCookieToActiveProfileSW_noop w c (Or.inr ⟨p, hap, hin⟩)
      rw [h1, h1]
    | true =>
      rw [saveCookieToActiveProfileSW_eq w c p hap hin]
      rw [saveCookieToActiveProfileSW_eq
        { w with
          cookieData :=
            setKey w.cookieData p.id
              (setKey ((lookupKey w.cookieData p.id).getD [])
                (normalizeDomain c.domain)
                (upsertBucket
                  ((lookupKey ((lookupKey w.cookieData p.id).getD [])
                    (normalizeDomain c.domain)).getD [])
                  c)) }
        c p hap hin]
      simp only [lookupKey_setKey_self, Option.getD_some, setKey_setKey, upsertBucket_idem]

/-! ## C6 -/

/-- C6 (amended): the incremental upsert does keep `(name, path)` unique and
is idempotent — upserting preserves per-bucket key-nodup (also lifted to the
whole snapshot through `saveCookieToActiveProfileSW`), a second identical
upsert is the identity, and after one upsert a nodup bucket holds exactly one
record with the cookie's `(name, path)`.  The bulk save paths, however, do
**not** preserve the invariant: the wildcard path appends without
deduplication (see the counterexample, where a second bulk save duplicates
every record of a bucket). -/
theorem upsert_preserves_snapshotNoDup :
    (∀ (bucket : List Cookie) (c : Cookie), (bucket.map keyNP).Nodup →
      ((upsertBucket bucket c).map keyNP).Nodup) ∧
    (∀ (bucket : List Cookie) (c : Cookie),
      upsertBucket (upsertBucket bucket c) c = upsertBucket bucket c) ∧
    (∀ (bucket : List Cookie) (c : Cookie), (bucket.map keyNP).Nodup →
      (upsertBucket bucket c).countP (fun r => decide (keyNP r = keyNP c)) = 1) ∧
    (∀ (w : World) (c : Cookie), snapshotNoDup w.cookieData →
      snapshotNoDup (saveCookieToActiveProfileSW w c).cookieData) ∧
    (∀ (w : World) (c : Cookie),
      saveCookieToActiveProfileSW (saveCookieToActiveProfileSW w c) c =
        saveCookieToActiveProfileSW w c) :=
  ⟨upsertBucket_nodup, upsertBucket_idem, countP_upsertBucket,
    snapshotNoDup_upsertSW, saveCookieToActiveProfileSW_idem⟩

/-- C6 witness: the upsert facts applied at concrete buckets and at the
concrete world with the plain-pattern profile. -/
theorem upsert_preserves_snapshotNoDup_witness :
    ((upsertBucket [otherCookie] subCookie).map keyNP).Nodup ∧
    (upsertBucket [subCookie] subCookie).countP
      (fun r => decide (keyNP r = keyNP subCookie)) = 1 ∧
    snapshotNoDup (saveCookieToActiveProfileSW plainWorld subCookie).cookieData :=
  ⟨upsert_preserves_snapshotNoDup.1 [otherCookie] subCookie (by decide),
    upsert_preserves_snapshotNoDup.2.2.1 [subCookie] subCookie (by decide),
    upsert_preserves_snapshotNoDup.2.2.2.1 plainWorld subCookie (by decide)⟩

/-- C6 counterexample: starting from an empty snapshot, one wildcard bulk save
leaves the `(name, path)`-uniqueness invariant intact, but a second bulk save
(a snapshot-writing operation applied to a reachable, invariant-satisfying
state) duplicates the record, so the bucket for `a.example.com` holds two
records with the same `(name, path)`. -/
theorem saveCurrentProfileCookiesSW_dup_cex :
    snapshotNoDup (saveCurrentProfileCookiesSW wildWorld).cookieData ∧
    ¬ snapshotNoDup
        (saveCurrentProfileCookiesSW (saveCurrentProfileCookiesSW wildWorld)).cookieData := by
  decide

/-! ## C7 -/

/-- C7 (amended): the **service-worker** incremental upsert does key buckets
by the cookie's own normalized domain — it preserves the invariant that every
domain key holds a record whose normalized domain equals the key, and it
stores the new record under `normalizeDomain cookie.domain`.  The ES-module
upsert instead keys by the matched configured pattern (see the
counterexample), so the claim fails for it. -/
theorem saveCookieToActiveProfileSW_goodKeys :
    (∀ (w : World) (c : Cookie), goodKeys w.cookieData →
      goodKeys (saveCookieToActiveProfileSW w c).cookieData) ∧
    (∀ (w : World) (c : Cookie) (p : Profile),
      getActiveProfile w = some p → isCookieInDomainsSW c p.domains = true →
      ∃ b, lookupKey
          ((lookupKey (saveCookieToActiveProfileSW w c).cookieData p.id).getD [])
          (normalizeDomain c.domain) = some b ∧
        recordOf c ∈ b ∧ normalizeDomain (recordOf c).domain = normalizeDomain c.domain) := by
  constructor
  · intro w c h
    cases hap : getActiveProfile w with
    | none => rw [saveCookieToActiveProfileSW_noop w c (Or.inl hap)]; exact h
    | some p =>
      cases hin : isCookieInDomainsSW c p.domains with
      | false =>
        rw [saveCookieToActiveProfileSW_noop w c (Or.inr ⟨p, hap, hin⟩)]
        exact h
      | true =>
        rw [saveCookieToActiveProfileSW_eq w c p hap hin]
        intro pm hpm b hb
        rcases mem_setKey hpm with hpm | hpm
        · subst hpm
          rcases mem_setKey hb with hb | hb
          · subst hb
            exact ⟨recordOf c, mem_upsertBucket_self _ c, rfl⟩
          · exact goodKeys_mem_getD h hb
        · exact h pm hpm b hb
  · intro w c p hap hin
    rw [saveCookieToActiveProfileSW_eq w c p hap hin]
    refine ⟨upsertBucket
        ((lookupKey ((lookupKey w.cookieData p.id).getD [])
          (normalizeDomain c.domain)).getD []) c, ?_, mem_upsertBucket_self _ c, rfl⟩
    rw [lookupKey_setKey_self, Option.getD_some, lookupKey_setKey_self]

/-- C7 witness: the service-worker upsert applied at the concrete world. -/
theorem saveCookieToActiveProfileSW_goodKeys_witness :
    goodKeys (saveCookieToActiveProfileSW plainWorld subCookie).cookieData ∧
    ∃ b, lookupKey
        ((lookupKey (saveCookieToActiveProfileSW plainWorld subCookie).cookieData
          plainProfile.id).getD [])
        (normalizeDomain subCookie.domain) = some b ∧
      recordOf subCookie ∈ b ∧
      normalizeDomain (recordOf subCookie).domain = normalizeDomain subCookie.domain :=
  ⟨saveCookieToActiveProfileSW_goodKeys.1 plainWorld subCookie (by decide),
    saveCookieToActiveProfileSW_goodKeys.2 plainWorld subCookie plainProfile
      (by decide) (by decide)⟩

/-- C7 counterexample: the ES-module upsert, on a reachable state (one
incremental save from an empty snapshot), stores the cookie under the matched
configured pattern `example.com` even though the record's normalized domain is
`a.example.com`, violating "every domain key equals the normalized domain of a
cookie stored under it". -/
theorem saveCookieToActiveProfile_patternKey_cex :
    lookupKey
      ((lookupKey (saveCookieToActiveProfile plainWorld subCookie).cookieData
        (str "p")).getD [])
      (str "example.com") = some [recordOf subCookie] ∧
    normalizeDomain (recordOf subCookie).domain ≠ str "example.com" ∧
    ¬ goodKeys (saveCookieToActiveProfile plainWorld subCookie).cookieData := by decide

/-! ## Switch-coordinator lemmas (C3, C4) -/

lemma getActiveProfile_setFlag (w : World) (b : Bool) :
    getActiveProfile { w with isSwitchingProfile := b } = getActiveProfile w := rfl

lemma foldl_saveCookies_readonly (ds : List Str) (pid : Str) :
    ∀ w : World,
      (ds.foldl (fun acc domain => saveCookies acc pid domain) w).profiles = w.profiles ∧
      (ds.foldl (fun acc domain => saveCookies acc pid domain) w).activeProfileId =
        w.activeProfileId ∧
      (ds.foldl (fun acc domain => saveCookies acc pid domain) w).liveCookies =
        w.liveCookies ∧
      (ds.foldl (fun acc domain => saveCookies acc pid domain) w).isSwitchingProfile =
        w.isSwitchingProfile := by
  induction ds with
  | nil => intro w; exact ⟨rfl, rfl, rfl, rfl⟩
  | cons d rest ih =>
    intro w
    rw [List.foldl_cons]
    exact ih (saveCookies w pid d)

lemma saveCurrentProfileCookies_readonly (w : World) :
    (saveCurrentProfileCookies w).profiles = w.profiles ∧
    (saveCurrentProfileCookies w).activeProfileId = w.activeProfileId ∧
    (saveCurrentProfileCookies w).liveCookies = w.liveCookies ∧
    (saveCurrentProfileCookies w).isSwitchingProfile = w.isSwitchingProfile := by
  unfold saveCurrentProfileCookies
  split
  · exact ⟨rfl, rfl, rfl, rfl⟩
  · split
    · exact ⟨rfl, rfl, rfl, rfl⟩
    · rename_i ds hds
      by_cases hlen : ds.length = 0
      · rw [if_pos hlen]
        exact ⟨rfl, rfl, rfl, rfl⟩
      · rw [if_neg hlen]
        exact foldl_saveCookies_readonly ds _ w

lemma switchStep1_fst (w1 : World) :
    (switchStep1 w1).fst =
      if (getActiveProfile w1).isSome then saveCurrentProfileCookies w1 else w1 := by
  unfold switchStep1
  cases h : getActiveProfile w1 <;> simp [h]

lemma switchStep1_snd (w1 : World) :
    (switchStep1 w1).snd =
      if (getActiveProfile w1).isSome then [SwitchEvent.save] else [] := by
  unfold switchStep1
  cases h : getActiveProfile w1 <;> simp [h]

lemma switchStep1_readonly (w1 : World) :
    (switchStep1 w1).fst.profiles = w1.profiles ∧
    (switchStep1 w1).fst.activeProfileId = w1.activeProfileId ∧
    (switchStep1 w1).fst.liveCookies = w1.liveCookies ∧
    (switchStep1 w1).fst.isSwitchingProfile = w1.isSwitchingProfile := by
  rw [switchStep1_fst]
  by_cases h : (getActiveProfile w1).isSome = true
  · rw [if_pos h]
    exact saveCurrentProfileCookies_readonly w1
  · rw [if_neg h]
    exact ⟨rfl, rfl, rfl, rfl⟩

lemma switchStep3_snd (w3 : World) (cc : Bool) :
    (switchStep3 w3 cc).snd = if cc then [SwitchEvent.clear] else [] := by
  cases cc <;> rfl

lemma switchStep3_fst_activeProfileId (w3 : World) (cc : Bool) :
    (switchStep3 w3 cc).fst.activeProfileId = w3.activeProfileId := by
  cases cc <;> rfl

lemma loadCookies_activeProfileId (w : World) (pid : Str) :
    (loadCookies w pid).activeProfileId = w.activeProfileId := by
  unfold loadCookies
  split <;> rfl

lemma switchProfileConfig_none (w : World) (pid : Str)
    (h : w.profiles.find? (fun p => decide (p.id = pid)) = none) :
    switchProfileConfig w pid = Except.error Err.profileNotFound := by
  unfold switchProfileConfig
  split
  · rfl
  · rename_i p hp
    rw [h] at hp
    exact absurd hp (by simp)

lemma switchProfileConfig_some (w : World) (pid : Str) (p : Profile)
    (h : w.profiles.find? (fun q => decide (q.id = pid)) = some p) :
    switchProfileConfig w pid = Except.ok { w with activeProfileId := some pid } := by
  unfold switchProfileConfig
  split
  · rename_i hp
    rw [h] at hp
    exact absurd hp (by simp)
  · rfl

lemma switchProfile_notFound_eq (w : World) (tid : Str) (cc : Bool)
    (hflag : w.isSwitchingProfile = false)
    (hfind : w.profiles.find? (fun p => decide (p.id = tid)) = none) :
    switchProfile w tid cc =
      { world :=
          { (switchStep1 { w with isSwitchingProfile := true }).fst with
            isSwitchingProfile := false }
        events := (switchStep1 { w with isSwitchingProfile := true }).snd
        error := some Err.profileNotFound } := by
  have hcfg :
      switchProfileConfig (switchStep1 { w with isSwitchingProfile := true }).fst tid =
        Except.error Err.profileNotFound :=
    switchProfileConfig_none _ tid (by
      rw [(switchStep1_readonly { w with isSwitchingProfile := true }).1]
      exact hfind)
  unfold switchProfile
  rw [if_neg (by simp [hflag])]
  split
  · rename_i e heq
    rw [hcfg] at heq
  · rename_i w3 heq
    rw [hcfg] at heq
    exact absurd heq (by simp)

lemma switchProfile_found_eq (w : World) (tid : Str) (cc : Bool) (p : Profile)
    (hflag : w.isSwitchingProfile = false)
    (hfind : w.profiles.find? (fun q => decide (q.id = tid)) = some p) :
    switchProfile w tid cc =
      { world :=
          { loadCookies
              (switchStep3
                { (switchStep1 { w with isSwitchingProfile := true }).fst with
                  activeProfileId := some tid } cc).fst tid with
            isSwitchingProfile := false }
        events :=
          (switchStep1 { w with isSwitchingProfile := true }).snd ++
            [SwitchEvent.updatePointer] ++
            (switchStep3
              { (switchStep1 { w with isSwitchingProfile := true }).fst with
                activeProfileId := some tid } cc).snd ++
            [SwitchEvent.load]
        error := none } := by
  have hcfg :
      switchProfileConfig (switchStep1 { w with isSwitchingProfile := true }).fst tid =
        Except.ok
          { (switchStep1 { w with isSwitchingProfile := true }).fst with
            activeProfileId := some tid } :=
    switchProfileConfig_some _ tid p (by
      rw [(switchStep1_readonly { w with isSwitchingProfile := true }).1]
      exact hfind)
  unfold switchProfile
  rw [if_neg (by simp [hflag])]
  split
  · rename_i e heq
    rw [hcfg] at heq
    exact absurd heq (by simp)
  · rename_i w3 heq
    rw [hcfg] at heq
    obtain rfl :
        ({ (switchStep1 { w with isSwitchingProfile := true }).fst with
          activeProfileId := some tid } : World) = w3 := Except.ok.inj heq
    rfl

/-! ## C3 -/

/-- C3: from the idle state, `switchProfile` runs save-outgoing (when an
active profile exists) → pointer update → optional clear → load, in that exact
order of events.  When the target id is absent from the profile store the call
errors with "profile not found" raised at the pointer-update step: the
active-profile pointer and the live cookie set are unchanged and nothing runs
after the pointer step, but the outgoing profile's save has already been
performed (the final snapshot store is exactly the one the save produced). -/
theorem switchProfile_spec (w : World) (tid : Str) (cc : Bool)
    (hflag : w.isSwitchingProfile = false) :
    (w.profiles.find? (fun p => decide (p.id = tid)) = none →
      (switchProfile w tid cc).error = some Err.profileNotFound ∧
      (switchProfile w tid cc).events =
        (if (getActiveProfile w).isSome then [SwitchEvent.save] else []) ∧
      (switchProfile w tid cc).world.activeProfileId = w.activeProfileId ∧
      (switchProfile w tid cc).world.liveCookies = w.liveCookies ∧
      (switchProfile w tid cc).world.isSwitchingProfile = false ∧
      (switchProfile w tid cc).world.cookieData =
        (if (getActiveProfile w).isSome
          then (saveCurrentProfileCookies { w with isSwitchingProfile := true }).cookieData
          else w.cookieData)) ∧
    (∀ p, w.profiles.find? (fun q => decide (q.id = tid)) = some p →
      (switchProfile w tid cc).error = none ∧
      (switchProfile w tid cc).events =
        (if (getActiveProfile w).isSome then [SwitchEvent.save] else []) ++
          [SwitchEvent.updatePointer] ++
          (if cc then [SwitchEvent.clear] else []) ++ [SwitchEvent.load] ∧
      (switchProfile w tid cc).world.activeProfileId = some tid ∧
      (switchProfile w tid cc).world.isSwitchingProfile = false) := by
  constructor
  · intro hfind
    rw [switchProfile_notFound_eq w tid cc hflag hfind]
    refine ⟨rfl, ?_, ?_, ?_, rfl, ?_⟩
    · rw [switchStep1_snd, getActiveProfile_setFlag]
    · show (switchStep1 { w with isSwitchingProfile := true }).fst.activeProfileId =
        w.activeProfileId
      exact (switchStep1_readonly _).2.1
    · show (switchStep1 { w with isSwitchingProfile := true }).fst.liveCookies =
        w.liveCookies
      exact (switchStep1_readonly _).2.2.1
    · show (switchStep1 { w with isSwitchingProfile := true }).fst.cookieData = _
      rw [switchStep1_fst, getActiveProfile_setFlag]
      by_cases h : (getActiveProfile w).isSome = true
      · rw [if_pos h, if_pos h]
      · rw [if_neg h, if_neg h]
  · intro p hfind
    rw [switchProfile_found_eq w tid cc p hflag hfind]
    refine ⟨rfl, ?_, ?_, rfl⟩
    · rw [switchStep1_snd, getActiveProfile_setFlag, switchStep3_snd]
    · show (loadCookies _ tid).activeProfileId = some tid
      rw [loadCookies_activeProfileId, switchStep3_fst_activeProfileId]

/-- C3 witness: the not-found behavior at a concrete world and absent id, and
the step order at the concrete world with the target present. -/
theorem switchProfile_spec_witness :
    (switchProfile plainWorld (str "q") true).error = some Err.profileNotFound ∧
    (switchProfile plainWorld (str "q") true).world.activeProfileId =
      plainWorld.activeProfileId ∧
    (switchProfile plainWorld (str "p") true).events =
      [SwitchEvent.save, SwitchEvent.updatePointer, SwitchEvent.clear,
        SwitchEvent.load] :=
  ⟨((switchProfile_spec plainWorld (str "q") true rfl).1 (by decide)).1,
    ((switchProfile_spec plainWorld (str "q") true rfl).1 (by decide)).2.2.1,
    (by
      have h :=
        ((switchProfile_spec plainWorld (str "p") true rfl).2 plainProfile
          (by decide)).2.1
      rw [h]
      decide)⟩

/-! ## C4 -/

/-- C4: a `switchProfile` call issued while another switch is in progress
returns immediately with the world unchanged, an empty step trace and no
error; and a call that enters the switch (idle at entry) always ends with the
guard flag back to `false` (`finally` semantics), on the normal path and on
the throwing path alike, so any error is surfaced only with the flag already
cleared. -/
theorem switchProfile_guard (w : World) (tid : Str) (cc : Bool) :
    (w.isSwitchingProfile = true →
      switchProfile w tid cc = { world := w, events := [], error := none }) ∧
    (w.isSwitchingProfile = false →
      (switchProfile w tid cc).world.isSwitchingProfile = false) := by
  constructor
  · intro h
    unfold switchProfile
    rw [if_pos h]
  · intro h
    unfold switchProfile
    rw [if_neg (by simp [h])]
    split
    · rfl
    · rfl

/-- C4 witness: the guard applied at a busy concrete world and the `finally`
semantics at an idle concrete world. -/
theorem switchProfile_guard_witness :
    switchProfile { plainWorld with isSwitchingProfile := true } (str "p") true =
      { world := { plainWorld with isSwitchingProfile := true }, events := []
        error := none } ∧
    (switchProfile plainWorld (str "q") true).world.isSwitchingProfile = false :=
  ⟨(switchProfile_guard { plainWorld with isSwitchingProfile := true } (str "p") true).1
      rfl,
    (switchProfile_guard plainWorld (str "q") true).2 rfl⟩

